import Mathlib

/-!
Verification of the arcan shared-memory transport sources against their
natural-language specification.

The development shallowly embeds the relevant C functions:

* `src/frameserver/arcan_frameserver_libretro.c`
  (`libretro_audcb`, `libretro_vidcb`),
* `src/src/shmif/egl-dri-rnode/egl-dri-rnode.c`
  (`arcan_shmifext_signal`, `arcan_shmifext_gltex_handle`,
   `add_context`, `get_egl_context`, `arcan_shmifext_swap_context`),
* and the event-queue operations declared in
  `src/src/shmif/arcan_shmif_interop.h`, whose implementations are not part
  of the provided sources and are therefore modelled from the header
  contract and the specification.

Byte-addressed memory is modelled as a total function `Nat → Nat` (offset
relative to the audio/video buffer start), `memmove`/`memcpy` as functional
overrides, machine arithmetic as `Nat`/`Int` with explicit bounds where the
C types matter.
-/

namespace Arcan

/-! ## Byte memory primitives

`memmoveF mem dst src len` is the result of `memmove(base+dst, base+src, len)`
on a memory `mem` addressed relative to `base`: the destination range takes a
snapshot of the source range (memmove semantics), everything else unchanged.
`memcpyF mem dst data` writes the list `data` at offset `dst`. -/

def memmoveF (mem : Nat → Nat) (dst src len : Nat) : Nat → Nat :=
  fun i => if dst ≤ i ∧ i < dst + len then mem (src + (i - dst)) else mem i

def memcpyF (mem : Nat → Nat) (dst : Nat) (data : List Nat) : Nat → Nat :=
  fun i => if dst ≤ i ∧ i < dst + data.length then data.getD (i - dst) 0 else mem i

/-! ## C1 — audio ring append (`libretro_audcb`)

Embedding of `libretro_audcb` from
`src/frameserver/arcan_frameserver_libretro.c` lines 130-154, specialised to
the successful `frameserver_semcheck` branch (the only branch that touches the
ring).  `cap` stands for the macro `SHMPAGE_AUDIOBUF_SIZE` (the header
defining it is not part of the sources; the spec instantiates it at 8192).
`mem` is memory addressed relative to `abufofs`, `used` is
`shared->abufused` on entry, `data` the incoming byte batch (length `new_s`).

The C body, line by line:
```
  size_t new_s = nframes * 2 * sizeof(int16_t);
  off_t dstofs = shared->abufofs + shared->abufused;      // dst = used
  void* dstbuf = ((void*) shared) + dstofs;
  ssize_t overflow = shared->abufused + new_s - SHMPAGE_AUDIOBUF_SIZE;
  if (overflow > 0)\x7b
    memmove(dstbuf, dstbuf + overflow, overflow);
    shared->abufused -= overflow;
  \x7d
  memcpy(dstbuf + shared->abufused, data, new_s);
  shared->abufused += new_s;
```
Returns the final `abufused` together with the final memory. -/

def libretro_audcb (cap used : Nat) (mem : Nat → Nat) (data : List Nat) :
    Nat × (Nat → Nat) :=
  let new_s := data.length
  let dst := used
  let overflow : Int := (used : Int) + new_s - cap
  if 0 < overflow then
    let ov := overflow.toNat
    let mem1 := memmoveF mem dst (dst + ov) ov
    let used1 := used - ov
    let mem2 := memcpyF mem1 (dst + used1) data
    (used1 + new_s, mem2)
  else
    (used + new_s, memcpyF mem (dst + used) data)

/-- Intended audio append, written from the spec sentence: when
`used + new_s > cap` the oldest `used + new_s - cap` bytes are dropped, the
result keeps the newest `cap - new_s` pre-existing bytes followed by the
entire new batch, and `abufused` ends at `cap`.  This definition follows the
words of the spec, for comparison with the embedding of the code above. -/
def audio_append_spec (cap used : Nat) (mem : Nat → Nat) (data : List Nat) :
    Nat × (Nat → Nat) :=
  let new_s := data.length
  if cap < used + new_s then
    let drop := used + new_s - cap
    let kept := used - drop
    let mem2 := fun i =>
      if i < kept then mem (drop + i)
      else if i < kept + new_s then data.getD (i - kept) 0
      else mem i
    (cap, mem2)
  else
    (used + new_s, memcpyF mem used data)

/-- Concrete instance from the claim: capacity 8192, 8000 bytes used,
pre-existing byte at offset `i` holds `i % 251`, incoming batch of 400 bytes
all equal to 253 (a value the pattern never takes). -/
def c1_mem : Nat → Nat := fun i => i % 251

def c1_data : List Nat := List.replicate 400 253

def c1_code_result : Nat × (Nat → Nat) := libretro_audcb 8192 8000 c1_mem c1_data

def c1_spec_result : Nat × (Nat → Nat) := audio_append_spec 8192 8000 c1_mem c1_data

/-! ## Video callback (`libretro_vidcb`)

Embedding of `libretro_vidcb` from
`src/frameserver/arcan_frameserver_libretro.c` lines 98-128.  The shared
page fields touched by the callback are `w`, `h`, `resized`, `vready` and the
video buffer (pixel-addressed memory starting at `vbufofs`, modelled as a
total function from pixel index to 32-bit value).  `frameserver_semcheck` at
the end of the callback is a synchronization wait and does not modify the
page, so it is outside the embedding. -/

structure ShmPage where
  w : Nat
  h : Nat
  resized : Bool
  vready : Bool
  vbuf : Nat → Nat

/-- Per-pixel conversion done inside the loop of `libretro_vidcb`
(lines 114-119): a 15-bit-packed XRGB555 value read through `uint16_t*` is
expanded into a 32-bit pixel.  `r`, `g`, `b` are `uint8_t` in the C code,
hence the `% 256`:
```
  uint8_t r = ((val & 0x7c00) >> 10 ) << 3;
  uint8_t g = ((val & 0x3e0) >> 5) << 3;
  uint8_t b = (val & 0x1f) << 3;
  *dbuf = (0xff) << 24 | b << 16 | g << 8 | r;
``` -/
def px555_conv (val : Nat) : Nat :=
  let r := (((val &&& 0x7c00) >>> 10) <<< 3) % 256
  let g := (((val &&& 0x3e0) >>> 5) <<< 3) % 256
  let b := ((val &&& 0x1f) <<< 3) % 256
  (0xff <<< 24) ||| (b <<< 16) ||| (g <<< 8) ||| r

/-- Embedding of `libretro_vidcb`: on geometry mismatch the shared dimensions
are updated and `resized` set; then the frame is unconditionally converted
into the video buffer (`dbuf` advances contiguously, the source row stride is
`pitch >> 1` sixteen-bit units) and `vready` is set.  `data` is the source
buffer read through `uint16_t*`, hence the `% 65536` on the loaded value. -/
def libretro_vidcb (s : ShmPage) (data : Nat → Nat)
    (width height pitch : Nat) : ShmPage :=
  let s1 := if width ≠ s.w ∨ height ≠ s.h then
      { s with w := width, h := height, resized := true } else s
  let vbuf2 := fun i =>
    if i < width * height then
      px555_conv (data ((i / width) * (pitch / 2) + i % width) % 65536)
    else s1.vbuf i
  { s1 with vbuf := vbuf2, vready := true }

/-! ## Helper lemmas on bitwise arithmetic -/

theorem shiftRight_or_distribNat (a b n : Nat) :
    (a ||| b) >>> n = a >>> n ||| b >>> n := by
  apply Nat.eq_of_testBit_eq
  intro i
  simp

theorem shiftRight_eq_zero_of_ltNat (x : Nat) (h : x < 2 ^ 24) : x >>> 24 = 0 := by
  rw [Nat.shiftRight_eq_div_pow]
  exact Nat.div_eq_of_lt h

/-- Claim C1 — the claim is right about the intent (the code comments say
"old data is dropped" and log "discarded"), but the code is wrong.  At the
claimed input (capacity 8192, `audio_used` 8000, 400 incoming bytes) the
final `abufused` does equal 8192, yet the ring content is not the newest 7792
pre-existing bytes followed by the new batch: the oldest byte (offset 0) is
left in place (the intended result holds the pre-existing byte 208 there),
because the `memmove` moves only `overflow` bytes taken from past the end of
the used region, and the new batch is `memcpy`-ed at offset
`used + (used - overflow)` = 15792, outside the 8192-byte ring. -/
theorem C1_audio_overflow_code_bug :
    c1_code_result.1 = 8192 ∧
    c1_spec_result.1 = 8192 ∧
    c1_spec_result.2 0 = c1_mem 208 ∧
    c1_code_result.2 0 = c1_mem 0 ∧
    c1_code_result.2 0 ≠ c1_spec_result.2 0 ∧
    c1_code_result.2 15792 = 253 ∧
    c1_spec_result.2 7792 = 253 ∧
    c1_code_result.2 7792 = c1_mem 7792 := by
  set_option maxRecDepth 8000 in decide

/-- Claim C9 — for every 16-bit source pixel value `v`, the conversion
writes `0xff<<24 | (b<<3)<<16 | (g<<3)<<8 | (r<<3)` with `r=(v&0x7c00)>>10`,
`g=(v&0x3e0)>>5`, `b=v&0x1f`; the produced pixel fits in 32 bits and its
alpha byte is always `0xff`. -/
theorem C9_px555_conversion (v : Nat) (hv : v < 65536) :
    px555_conv v =
      (0xff <<< 24) ||| (((v &&& 0x1f) <<< 3) <<< 16) |||
        ((((v &&& 0x3e0) >>> 5) <<< 3) <<< 8) ||| (((v &&& 0x7c00) >>> 10) <<< 3) ∧
    px555_conv v < 2 ^ 32 ∧
    px555_conv v >>> 24 = 0xff := by
  have hr0 : (v &&& 0x7c00) >>> 10 ≤ 31 := by
    have h1 : v &&& 0x7c00 ≤ 0x7c00 := Nat.and_le_right
    rw [Nat.shiftRight_eq_div_pow]
    omega
  have hg0 : (v &&& 0x3e0) >>> 5 ≤ 31 := by
    have h1 : v &&& 0x3e0 ≤ 0x3e0 := Nat.and_le_right
    rw [Nat.shiftRight_eq_div_pow]
    omega
  have hb0 : v &&& 0x1f ≤ 31 := Nat.and_le_right
  have hr : (((v &&& 0x7c00) >>> 10) <<< 3) % 256 = ((v &&& 0x7c00) >>> 10) <<< 3 := by
    rw [Nat.shiftLeft_eq]
    exact Nat.mod_eq_of_lt (by omega)
  have hg : (((v &&& 0x3e0) >>> 5) <<< 3) % 256 = ((v &&& 0x3e0) >>> 5) <<< 3 := by
    rw [Nat.shiftLeft_eq]
    exact Nat.mod_eq_of_lt (by omega)
  have hb : ((v &&& 0x1f) <<< 3) % 256 = (v &&& 0x1f) <<< 3 := by
    rw [Nat.shiftLeft_eq]
    exact Nat.mod_eq_of_lt (by omega)
  have heq : px555_conv v =
      (0xff <<< 24) ||| (((v &&& 0x1f) <<< 3) <<< 16) |||
        ((((v &&& 0x3e0) >>> 5) <<< 3) <<< 8) ||| (((v &&& 0x7c00) >>> 10) <<< 3) := by
    unfold px555_conv
    rw [hr, hg, hb]
  have hblt : ((v &&& 0x1f) <<< 3) <<< 16 < 2 ^ 24 := by
    rw [Nat.shiftLeft_eq, Nat.shiftLeft_eq]
    have : (v &&& 0x1f) ≤ 31 := hb0
    omega
  have hglt : (((v &&& 0x3e0) >>> 5) <<< 3) <<< 8 < 2 ^ 24 := by
    rw [Nat.shiftLeft_eq, Nat.shiftLeft_eq]
    omega
  have hrlt : ((v &&& 0x7c00) >>> 10) <<< 3 < 2 ^ 24 := by
    rw [Nat.shiftLeft_eq]
    omega
  refine ⟨heq, ?_, ?_⟩
  · rw [heq]
    have h32 : (2 : Nat) ^ 24 ≤ 2 ^ 32 := by norm_num
    refine Nat.or_lt_two_pow (Nat.or_lt_two_pow (Nat.or_lt_two_pow ?_ ?_) ?_) ?_
    · decide
    · omega
    · omega
    · omega
  · rw [heq, shiftRight_or_distribNat, shiftRight_or_distribNat,
      shiftRight_or_distribNat,
      shiftRight_eq_zero_of_ltNat _ hblt,
      shiftRight_eq_zero_of_ltNat _ hglt,
      shiftRight_eq_zero_of_ltNat _ hrlt]
    decide

/-- Witness for C9 at the concrete 16-bit pixel `0x7fff` (white). -/
theorem C9_px555_conversion_witness :
    px555_conv 0x7fff =
      (0xff <<< 24) ||| (((0x7fff &&& 0x1f) <<< 3) <<< 16) |||
        ((((0x7fff &&& 0x3e0) >>> 5) <<< 3) <<< 8) |||
        (((0x7fff &&& 0x7c00) >>> 10) <<< 3) ∧
    px555_conv 0x7fff < 2 ^ 32 ∧
    px555_conv 0x7fff >>> 24 = 0xff :=
  C9_px555_conversion 0x7fff (by decide)

/-! ## C2 — frame writes during an outstanding resize -/

/-- Claim C2 as stated: while the resized flag is outstanding (set and not yet
cleared by the consumer), a producer video callback must leave the frame-ready
signal and the video buffer untouched. -/
def ClaimC2 : Prop :=
  ∀ (s : ShmPage) (data : Nat → Nat) (width height pitch : Nat),
    s.resized = true →
      (libretro_vidcb s data width height pitch).vready = s.vready ∧
      ∀ i, (libretro_vidcb s data width height pitch).vbuf i = s.vbuf i

/-- Shared page used to refute C2: a resize is outstanding
(`resized = true`, not yet acknowledged), geometry 1x1, empty buffer. -/
def c2_page : ShmPage :=
  { w := 1, h := 1, resized := true, vready := false, vbuf := fun _ => 0 }

/-- Claim C2 is false of the code: with a resize outstanding and a 1x1 frame
of matching geometry arriving, `libretro_vidcb` still raises `vready` and
overwrites the video buffer in the same invocation. -/
theorem C2_counterexample : ¬ ClaimC2 := by
  intro hC
  have h := hC c2_page (fun _ => 0x7fff) 1 1 2 rfl
  have h1 : (libretro_vidcb c2_page (fun _ => 0x7fff) 1 1 2).vready = false := h.1
  have h2 := h.2 0
  revert h1 h2
  decide

/-- Claim C2 amended — what the code actually does: every invocation of the
video callback raises `vready` and rewrites the full `width*height` frame
into the video buffer, regardless of whether a resize transition is
outstanding; a geometry mismatch additionally updates the dimensions and sets
`resized` in the same invocation, without waiting for acknowledgment. -/
theorem C2_amended_vidcb_unconditional (s : ShmPage) (data : Nat → Nat)
    (width height pitch : Nat) :
    (libretro_vidcb s data width height pitch).vready = true ∧
    (libretro_vidcb s data width height pitch).w = width ∧
    (libretro_vidcb s data width height pitch).h = height ∧
    (libretro_vidcb s data width height pitch).resized =
      (if width = s.w ∧ height = s.h then s.resized else true) ∧
    ∀ i, (libretro_vidcb s data width height pitch).vbuf i =
      (if i < width * height then
        px555_conv (data ((i / width) * (pitch / 2) + i % width) % 65536)
      else s.vbuf i) := by
  unfold libretro_vidcb
  by_cases hc : width ≠ s.w ∨ height ≠ s.h
  · rw [if_pos hc]
    have hnc : ¬ (width = s.w ∧ height = s.h) := by tauto
    refine ⟨rfl, rfl, rfl, by rw [if_neg hnc], fun i => rfl⟩
  · rw [if_neg hc]
    have hnc : width = s.w ∧ height = s.h := by tauto
    refine ⟨rfl, ?_, ?_, by rw [if_pos hnc], fun i => rfl⟩
    · exact hnc.1.symm
    · exact hnc.2.symm

/-! ## C3 — torn reads of geometry versus the resized flag

The producer side of the resize request is lines 103-105 of
`libretro_vidcb`:
```
  shared->w = width;
  shared->h = height;
  shared->resized = true;
```
three separate stores, in program order.  The consumer runs in another
process and may observe the shared geometry between any two stores, and may
acknowledge (clear `resized`) at any time.  This is made precise as a small
step relation over the shared geometry fields: a configuration is the shared
state paired with the producer stores not yet performed; a step either
performs the next store or lets the consumer clear the flag. -/

structure Geom where
  w : Nat
  h : Nat
  resized : Bool

inductive ResOp where
  | setW (a : Nat)
  | setH (b : Nat)
  | setFlag

/-- Store sequence the producer issues for one resize request `(a, b)`,
exactly lines 103-105 of the source in program order. -/
def reqOps (r : Nat × Nat) : List ResOp :=
  [ResOp.setW r.1, ResOp.setH r.2, ResOp.setFlag]

def applyOp (s : Geom) : ResOp → Geom
  | ResOp.setW a => { s with w := a }
  | ResOp.setH b => { s with h := b }
  | ResOp.setFlag => { s with resized := true }

/-- One step of the cross-process system: the producer performs its next
pending store, or the consumer acknowledges by clearing `resized`. -/
inductive ResStep : Geom × List ResOp → Geom × List ResOp → Prop where
  | prod (s : Geom) (op : ResOp) (rest : List ResOp) :
      ResStep (s, op :: rest) (applyOp s op, rest)
  | ack (s : Geom) (rest : List ResOp) :
      ResStep (s, rest) ({ s with resized := false }, rest)

/-- Claim C3 as stated: starting from an acknowledged state, along any
interleaving of the producer performing a queue of resize requests with
consumer acknowledgments, every state in which `resized` is observed true
carries a `(w, h)` pair written by a single request (or the initial pair) —
never a torn combination. -/
def ClaimC3 : Prop :=
  ∀ (init : Geom) (reqs : List (Nat × Nat)) (s : Geom) (rem : List ResOp),
    init.resized = false →
    Relation.ReflTransGen ResStep (init, (reqs.map reqOps).flatten) (s, rem) →
    s.resized = true →
    (s.w, s.h) = (init.w, init.h) ∨ (s.w, s.h) ∈ reqs

/-- Claim C3 is false when two resize requests are issued before the first is
acknowledged: on requests (1,2) then (3,4) from initial geometry (0,0), the
state `w=3, h=2, resized=true` is reachable — a torn pair from two different
requests observed with the flag set. -/
theorem C3_counterexample : ¬ ClaimC3 := by
  intro hC
  have hreach : Relation.ReflTransGen ResStep
      ((⟨0, 0, false⟩ : Geom), (([(1,2),(3,4)].map reqOps).flatten))
      ((⟨3, 2, true⟩ : Geom), [ResOp.setH 4, ResOp.setFlag]) := by
    have s1 : ResStep ((⟨0, 0, false⟩ : Geom),
        [ResOp.setW 1, ResOp.setH 2, ResOp.setFlag,
         ResOp.setW 3, ResOp.setH 4, ResOp.setFlag])
        ((⟨1, 0, false⟩ : Geom),
        [ResOp.setH 2, ResOp.setFlag, ResOp.setW 3, ResOp.setH 4,
         ResOp.setFlag]) :=
      ResStep.prod _ _ _
    have s2 : ResStep ((⟨1, 0, false⟩ : Geom),
        [ResOp.setH 2, ResOp.setFlag, ResOp.setW 3, ResOp.setH 4,
         ResOp.setFlag])
        ((⟨1, 2, false⟩ : Geom),
        [ResOp.setFlag, ResOp.setW 3, ResOp.setH 4, ResOp.setFlag]) :=
      ResStep.prod _ _ _
    have s3 : ResStep ((⟨1, 2, false⟩ : Geom),
        [ResOp.setFlag, ResOp.setW 3, ResOp.setH 4, ResOp.setFlag])
        ((⟨1, 2, true⟩ : Geom), [ResOp.setW 3, ResOp.setH 4, ResOp.setFlag]) :=
      ResStep.prod _ _ _
    have s4 : ResStep ((⟨1, 2, true⟩ : Geom),
        [ResOp.setW 3, ResOp.setH 4, ResOp.setFlag])
        ((⟨3, 2, true⟩ : Geom), [ResOp.setH 4, ResOp.setFlag]) :=
      ResStep.prod _ _ _
    exact .head s1 (.head s2 (.head s3 (.head s4 .refl)))
  have h := hC ⟨0, 0, false⟩ [(1,2),(3,4)] ⟨3, 2, true⟩
    [ResOp.setH 4, ResOp.setFlag] rfl hreach rfl
  simp at h

/-- Invariant for the single-request correctness of the resize commit. -/
def resInv (a b : Nat) : Geom × List ResOp → Prop
  | (s, rem) =>
      (rem = [ResOp.setW a, ResOp.setH b, ResOp.setFlag] ∧ s.resized = false) ∨
      (rem = [ResOp.setH b, ResOp.setFlag] ∧ s.resized = false ∧ s.w = a) ∨
      (rem = [ResOp.setFlag] ∧ s.resized = false ∧ s.w = a ∧ s.h = b) ∨
      (rem = [] ∧ s.w = a ∧ s.h = b)

theorem resInv_step {a b : Nat} {c c₂ : Geom × List ResOp}
    (h : resInv a b c) (hs : ResStep c c₂) : resInv a b c₂ := by
  cases hs with
  | prod s op rest =>
    rcases h with ⟨h1, h2⟩ | ⟨h1, h2, h3⟩ | ⟨h1, h2, h3, h4⟩ | ⟨h1, h2, h3⟩
    · cases h1
      right; left
      exact ⟨rfl, h2, rfl⟩
    · cases h1
      right; right; left
      exact ⟨rfl, h2, h3, rfl⟩
    · cases h1
      right; right; right
      exact ⟨rfl, h3, h4⟩
    · cases h1
  | ack s rest =>
    rcases h with ⟨h1, h2⟩ | ⟨h1, h2, h3⟩ | ⟨h1, h2, h3, h4⟩ | ⟨h1, h2, h3⟩
    · left; exact ⟨h1, rfl⟩
    · right; left; exact ⟨h1, rfl, h3⟩
    · right; right; left; exact ⟨h1, rfl, h3, h4⟩
    · right; right; right; exact ⟨h1, h2, h3⟩

theorem resInv_reach {a b : Nat} {c c₂ : Geom × List ResOp}
    (h : resInv a b c) (hr : Relation.ReflTransGen ResStep c c₂) :
    resInv a b c₂ := by
  induction hr with
  | refl => exact h
  | tail _ hs ih => exact resInv_step ih hs

/-- Claim C3 amended — the two-phase commit is torn-read-free for a single
outstanding request: if the producer issues one resize request `(a, b)` from
an acknowledged state, then in every reachable state in which `resized` is
observed true the geometry pair is exactly `(a, b)`; the original claim over
arbitrary request queues fails once a second request starts before the first
acknowledgment (see the counterexample). -/
theorem C3_amended_single_request (init : Geom) (a b : Nat) (s : Geom)
    (rem : List ResOp) (hinit : init.resized = false)
    (hreach : Relation.ReflTransGen ResStep (init, reqOps (a, b)) (s, rem))
    (hres : s.resized = true) : s.w = a ∧ s.h = b := by
  have hstart : resInv a b (init, reqOps (a, b)) := by
    left
    exact ⟨rfl, hinit⟩
  have hinv : resInv a b (s, rem) := resInv_reach hstart hreach
  rcases hinv with ⟨_, h2⟩ | ⟨_, h2, _⟩ | ⟨_, h2, _, _⟩ | ⟨_, h2, h3⟩
  · rw [hres] at h2; cases h2
  · rw [hres] at h2; cases h2
  · rw [hres] at h2; cases h2
  · exact ⟨h2, h3⟩

/-- Witness for the amended C3 at a concrete single request (7, 8) from the
acknowledged state (5, 6): the fully committed state is reachable and
carries the untorn pair. -/
theorem C3_amended_single_request_witness :
    (⟨7, 8, true⟩ : Geom).w = 7 ∧ (⟨7, 8, true⟩ : Geom).h = 8 :=
  C3_amended_single_request ⟨5, 6, false⟩ 7 8 ⟨7, 8, true⟩ [] rfl
    (.head (ResStep.prod ⟨5, 6, false⟩ (ResOp.setW 7) _)
      (.head (ResStep.prod ⟨7, 6, false⟩ (ResOp.setH 8) _)
        (.head (ResStep.prod ⟨7, 8, false⟩ ResOp.setFlag _) .refl))) rfl

/-! ## Event queue operations (C4, C5, C8)

The implementations of `arcan_shmif_poll`, `arcan_shmif_wait`,
`arcan_shmif_enqueue`, `arcan_shmif_tryenqueue` and
`arcan_shmif_acquireloop` are not part of the provided sources — only their
declarations and contracts in `src/src/shmif/arcan_shmif_interop.h` (lines
86-178) and the specification sections 4.2, 4.3 and 7.  The definitions
below are therefore modelled from those contracts. -/

/-- Event record: category tag, payload stand-in, and the
"carries a descriptor" marker (`arcan_shmif_descrevent`). -/
structure SEvent where
  category : Nat
  payload : Nat
  descriptor : Bool
deriving DecidableEq

/-- Connection view of one direction of the event transport: the dead flag,
the undequeued records (oldest first, the `front..back` window of the ring)
and the ring capacity. -/
structure ShmifCont where
  dead : Bool
  queue : List SEvent
  cap : Nat
deriving DecidableEq

/-- Something that can wake a blocking wait: an arriving event, or the peer
marking the connection dead. -/
inductive Arrival where
  | ev (e : SEvent)
  | die
deriving DecidableEq

/-- Modelled from the spec: `arcan_shmif_poll` (header lines 86-92, spec
section 4.2) is non-blocking and returns a positive value together with the
oldest undequeued record, 0 when no event is available, and a negative value
when the connection is in the terminal state.  The terminal state takes
priority: every operation on a dead connection returns the terminal
indicator (spec section 4.5). -/
def arcan_shmif_poll (c : ShmifCont) : Int × Option SEvent × ShmifCont :=
  if c.dead then (-1, none, c)
  else
    match c.queue with
    | [] => (0, none, c)
    | e :: rest => (1, some e, { c with queue := rest })

/-- Modelled from the spec: `arcan_shmif_wait` (header lines 94-99) blocks
until an event can be dequeued or the connection becomes terminal, returning
nonzero with the event, or 0 on terminal.  The block is modelled by the list
of future wake-ups; `none` stands for a wait that never returns because
nothing ever arrives. -/
def arcan_shmif_wait (c : ShmifCont) (future : List Arrival) :
    Option (Int × Option SEvent × ShmifCont) :=
  if c.dead then some (0, none, c)
  else
    match c.queue with
    | e :: rest => some (1, some e, { c with queue := rest })
    | [] =>
      match future with
      | [] => none
      | Arrival.ev e :: _ => some (1, some e, c)
      | Arrival.die :: _ => some (0, none, { c with dead := true })

/-- Result of an enqueue attempt: number of free slots left on success, a
negative/error result on failure, or — only under `lossless` on a full
queue — blocking until space frees. -/
inductive EnqResult where
  | ok (free : Nat)
  | error
  | wouldBlock
deriving DecidableEq

/-- Modelled from the spec: `arcan_shmif_enqueue` (header lines 162-175,
spec section 4.2): writes at `back` and returns the number of free slots
left; on a full queue it blocks when `lossless` is set and fails immediately
without inserting (drop-newest) otherwise; on a dead connection it returns
the error indicator. -/
def arcan_shmif_enqueue (c : ShmifCont) (e : SEvent) (lossless : Bool) :
    EnqResult × ShmifCont :=
  if c.dead then (EnqResult.error, c)
  else if c.cap ≤ c.queue.length then
    if lossless then (EnqResult.wouldBlock, c) else (EnqResult.error, c)
  else (EnqResult.ok (c.cap - (c.queue.length + 1)), { c with queue := c.queue ++ [e] })

/-- Modelled from the spec: `arcan_shmif_tryenqueue` (header lines 177-178,
spec section 4.2): never blocks; fails immediately on a full queue without
inserting the event. -/
def arcan_shmif_tryenqueue (c : ShmifCont) (e : SEvent) :
    EnqResult × ShmifCont :=
  if c.dead then (EnqResult.error, c)
  else if c.cap ≤ c.queue.length then (EnqResult.error, c)
  else (EnqResult.ok (c.cap - (c.queue.length + 1)), { c with queue := c.queue ++ [e] })

/-- Outcome of `arcan_shmif_acquireloop`: the expected reply plus the
buffered backlog, a fatal indicator (connection entered the terminal state
while waiting, backlog still available to the caller), or out-of-memory
(the only outcome in which buffered events are lost). -/
inductive AcqResult where
  | ok (reply : SEvent) (backlog : List SEvent)
  | fatal (backlog : List SEvent)
  | oom
deriving DecidableEq

/-- Modelled from the spec: `arcan_shmif_acquireloop` (header lines 101-155,
spec section 4.3) waits for a reply satisfying `expected`, buffering every
other incoming event — descriptor-carrying ones included — in arrival order.
`budget` is the number of events the growable buffer can still take before
an allocation fails (OOM).  `none` models a wait that never returns. -/
def arcan_shmif_acquireloop (expected : SEvent → Bool) (budget : Nat)
    (incoming : List Arrival) (acc : List SEvent) : Option AcqResult :=
  match incoming with
  | [] => none
  | Arrival.die :: _ => some (AcqResult.fatal acc.reverse)
  | Arrival.ev e :: rest =>
    if expected e then some (AcqResult.ok e acc.reverse)
    else
      match budget with
      | 0 => some AcqResult.oom
      | b + 1 => arcan_shmif_acquireloop expected b rest (e :: acc)

/-- Claim C4 — poll is non-blocking and returns a positive value exactly
when an event can be dequeued, zero exactly when the queue is empty, and a
negative value exactly when the connection is terminal (terminal takes
priority, DEAD is absorbing); wait returns nonzero with a dequeued event or
zero on terminal, and on a dead connection both calls return the terminal
indicator immediately, for every possible future. -/
theorem C4_poll_wait_semantics (c : ShmifCont) (future : List Arrival) :
    ((arcan_shmif_poll c).1 < 0 ↔ c.dead = true) ∧
    (0 < (arcan_shmif_poll c).1 ↔ (c.dead = false ∧ c.queue ≠ [])) ∧
    ((arcan_shmif_poll c).1 = 0 ↔ (c.dead = false ∧ c.queue = [])) ∧
    ((arcan_shmif_poll c).2.1 =
      (if c.dead = true then none else c.queue.head?)) ∧
    (c.dead = true → arcan_shmif_poll c = (-1, none, c) ∧
      arcan_shmif_wait c future = some (0, none, c)) ∧
    (∀ r, arcan_shmif_wait c future = some r →
      (r.1 = 1 ∧ ∃ e, r.2.1 = some e) ∨ (r.1 = 0 ∧ r.2.2.dead = true)) := by
  unfold arcan_shmif_poll arcan_shmif_wait
  rcases c with ⟨dead, queue, cap⟩
  cases dead with
  | true =>
    refine ⟨by simp, by simp, by simp, by simp, fun _ => ⟨rfl, rfl⟩, ?_⟩
    intro r hr
    simp at hr
    right
    rw [← hr]
    exact ⟨rfl, rfl⟩
  | false =>
    cases queue with
    | nil =>
      refine ⟨by simp, by simp, by simp, by simp, by simp, ?_⟩
      intro r hr
      cases future with
      | nil => simp at hr
      | cons a rest =>
        cases a with
        | ev e =>
          simp at hr
          left
          rw [← hr]
          exact ⟨rfl, e, rfl⟩
        | die =>
          simp at hr
          right
          rw [← hr]
          exact ⟨rfl, rfl⟩
    | cons e rest =>
      refine ⟨by simp, by simp, by simp, by simp, by simp, ?_⟩
      intro r hr
      simp at hr
      left
      rw [← hr]
      exact ⟨rfl, e, rfl⟩

/-- Witness for C4 on a live connection holding one event, with an empty
future. -/
theorem C4_poll_wait_semantics_witness :
    ((arcan_shmif_poll ⟨false, [⟨1, 2, true⟩], 8⟩).1 < 0 ↔
      (⟨false, [⟨1, 2, true⟩], 8⟩ : ShmifCont).dead = true) ∧
    (0 < (arcan_shmif_poll ⟨false, [⟨1, 2, true⟩], 8⟩).1 ↔
      ((⟨false, [⟨1, 2, true⟩], 8⟩ : ShmifCont).dead = false ∧
        (⟨false, [⟨1, 2, true⟩], 8⟩ : ShmifCont).queue ≠ [])) ∧
    ((arcan_shmif_poll ⟨false, [⟨1, 2, true⟩], 8⟩).1 = 0 ↔
      ((⟨false, [⟨1, 2, true⟩], 8⟩ : ShmifCont).dead = false ∧
        (⟨false, [⟨1, 2, true⟩], 8⟩ : ShmifCont).queue = [])) ∧
    ((arcan_shmif_poll ⟨false, [⟨1, 2, true⟩], 8⟩).2.1 =
      (if (⟨false, [⟨1, 2, true⟩], 8⟩ : ShmifCont).dead = true then none
        else (⟨false, [⟨1, 2, true⟩], 8⟩ : ShmifCont).queue.head?)) ∧
    ((⟨false, [⟨1, 2, true⟩], 8⟩ : ShmifCont).dead = true →
      arcan_shmif_poll ⟨false, [⟨1, 2, true⟩], 8⟩ =
        (-1, none, ⟨false, [⟨1, 2, true⟩], 8⟩) ∧
      arcan_shmif_wait ⟨false, [⟨1, 2, true⟩], 8⟩ [] =
        some (0, none, ⟨false, [⟨1, 2, true⟩], 8⟩)) ∧
    (∀ r, arcan_shmif_wait ⟨false, [⟨1, 2, true⟩], 8⟩ [] = some r →
      (r.1 = 1 ∧ ∃ e, r.2.1 = some e) ∨ (r.1 = 0 ∧ r.2.2.dead = true)) :=
  C4_poll_wait_semantics ⟨false, [⟨1, 2, true⟩], 8⟩ []

theorem acquireloop_buffer_walk (expected : SEvent → Bool) (budget : Nat)
    (pre : List SEvent) (rest : List Arrival) (acc : List SEvent)
    (hpre : ∀ x ∈ pre, expected x = false) :
    (pre.length ≤ budget →
      arcan_shmif_acquireloop expected budget (pre.map Arrival.ev ++ rest) acc =
        arcan_shmif_acquireloop expected (budget - pre.length) rest
          (pre.reverse ++ acc)) ∧
    (budget < pre.length →
      arcan_shmif_acquireloop expected budget (pre.map Arrival.ev ++ rest) acc =
        some AcqResult.oom) := by
  induction pre generalizing budget acc with
  | nil => exact ⟨fun _ => by simp, fun h => absurd h (by simp)⟩
  | cons x xs ih =>
    have hx : expected x = false := hpre x (List.mem_cons_self x xs)
    have hxs : ∀ y ∈ xs, expected y = false :=
      fun y hy => hpre y (List.mem_cons_of_mem x hy)
    have hstep0 :
        arcan_shmif_acquireloop expected 0
          ((x :: xs).map Arrival.ev ++ rest) acc = some AcqResult.oom := by
      simp [arcan_shmif_acquireloop, hx]
    have hstepS : ∀ b : Nat,
        arcan_shmif_acquireloop expected (b + 1)
          ((x :: xs).map Arrival.ev ++ rest) acc =
        arcan_shmif_acquireloop expected b (xs.map Arrival.ev ++ rest)
          (x :: acc) := by
      intro b
      simp [arcan_shmif_acquireloop, hx]
    constructor
    · intro hlen
      cases budget with
      | zero => exact absurd hlen (by simp)
      | succ b =>
        have hlen2 : xs.length ≤ b := by
          simp only [List.length_cons] at hlen
          omega
        rw [hstepS b]
        rw [(ih b (x :: acc) hxs).1 hlen2]
        have harr : xs.reverse ++ x :: acc = (x :: xs).reverse ++ acc := by simp
        have hb : b - xs.length = b + 1 - (x :: xs).length := by
          simp only [List.length_cons]
          omega
        rw [harr, hb]
    · intro hlen
      cases budget with
      | zero => exact hstep0
      | succ b =>
        have hlen2 : b < xs.length := by
          simp only [List.length_cons] at hlen
          omega
        rw [hstepS b]
        exact (ih b (x :: acc) hxs).2 hlen2

/-- Claim C5 — while awaiting a reply satisfying `expected`, acquireloop
returns exactly one of: (1) the expected reply plus the full backlog of the
other events that arrived first — descriptor-carrying ones included — in
arrival order, when buffering succeeded; (2) the fatal indicator when the
connection entered the terminal state while waiting (the backlog is still
handed back); (3) the out-of-memory indicator when buffering failed, the
only outcome in which the buffered events are lost. -/
theorem C5_acquireloop_outcomes (expected : SEvent → Bool) (budget : Nat)
    (pre : List SEvent) (tail : List Arrival)
    (hpre : ∀ x ∈ pre, expected x = false) :
    (pre.length ≤ budget →
      (∀ e, expected e = true →
        arcan_shmif_acquireloop expected budget
          (pre.map Arrival.ev ++ Arrival.ev e :: tail) [] =
          some (AcqResult.ok e pre)) ∧
      arcan_shmif_acquireloop expected budget
        (pre.map Arrival.ev ++ Arrival.die :: tail) [] =
        some (AcqResult.fatal pre)) ∧
    (budget < pre.length → ∀ rest,
      arcan_shmif_acquireloop expected budget (pre.map Arrival.ev ++ rest) [] =
        some AcqResult.oom) := by
  constructor
  · intro hlen
    constructor
    · intro e he
      rw [(acquireloop_buffer_walk expected budget pre (Arrival.ev e :: tail) []
        hpre).1 hlen]
      unfold arcan_shmif_acquireloop
      rw [he]
      simp
    · rw [(acquireloop_buffer_walk expected budget pre (Arrival.die :: tail) []
        hpre).1 hlen]
      unfold arcan_shmif_acquireloop
      simp
  · intro hlen rest
    exact (acquireloop_buffer_walk expected budget pre rest [] hpre).2 hlen

/-- Witness for C5: two non-matching events (one carrying a descriptor)
buffered before the matching reply, budget 3. -/
theorem C5_acquireloop_outcomes_witness :
    arcan_shmif_acquireloop (fun e => e.category == 7) 3
      ([⟨1, 10, true⟩, ⟨2, 11, false⟩].map Arrival.ev ++
        Arrival.ev ⟨7, 12, false⟩ :: []) [] =
      some (AcqResult.ok ⟨7, 12, false⟩ [⟨1, 10, true⟩, ⟨2, 11, false⟩]) :=
  ((C5_acquireloop_outcomes (fun e => e.category == 7) 3
      [⟨1, 10, true⟩, ⟨2, 11, false⟩] [] (by decide)).1 (by decide)).1
    ⟨7, 12, false⟩ (by decide)

/-- Claim C8 — `tryenqueue` never blocks and is semantically equivalent to
`enqueue` with `lossless = false`: the two agree on every queue state and
event; on success both return the number of free slots remaining, and on a
full queue both fail immediately with the error result leaving the queue
unchanged (drop-newest). -/
theorem C8_tryenqueue_equiv_enqueue_lossy (c : ShmifCont) (e : SEvent) :
    arcan_shmif_tryenqueue c e = arcan_shmif_enqueue c e false ∧
    (arcan_shmif_tryenqueue c e).1 ≠ EnqResult.wouldBlock ∧
    ((arcan_shmif_tryenqueue c e).2.queue =
      (if c.dead = true ∨ c.cap ≤ c.queue.length then c.queue
        else c.queue ++ [e])) ∧
    ((arcan_shmif_tryenqueue c e).1 =
      (if c.dead = true ∨ c.cap ≤ c.queue.length then EnqResult.error
        else EnqResult.ok (c.cap - (c.queue.length + 1)))) := by
  unfold arcan_shmif_tryenqueue arcan_shmif_enqueue
  rcases c with ⟨dead, queue, cap⟩
  cases dead with
  | true => exact ⟨rfl, by simp, by simp, by simp⟩
  | false =>
    by_cases hfull : cap ≤ queue.length
    · simp [hfull]
    · simp [hfull]

/-! ## GPU handle export (C7) — `arcan_shmifext_gltex_handle`

Embedding of `arcan_shmifext_gltex_handle`
(`src/src/shmif/egl-dri-rnode/egl-dri-rnode.c` lines 657-699) as a state
machine.  The context fields are `ctx->image` (a reference to an EGL image,
kept as an abstract name; it may dangle after the image was destroyed) and
`ctx->dmabuf`.  To express the in-flight invariant the model also tracks the
EGL images created and not yet destroyed (`live`) and the exported
descriptors opened and not yet closed (`openfds`) — bookkeeping the C
runtime does implicitly.  `ctr` supplies fresh names for created images.
The EGL calls themselves (`create_image`, `query_image_format`,
`export_dmabuf`) are abstracted by a per-call oracle recording their
results. -/

structure ExtGpu where
  image : Option Nat
  dmabuf : Int
  live : List Nat
  openfds : List Int
  ctr : Nat
deriving DecidableEq

/-- Initial extended-context state established by `arcan_shmifext_egl`
(lines 577-578): the struct is zeroed and `dmabuf` set to -1. -/
def extGpuInit : ExtGpu :=
  { image := none, dmabuf := -1, live := [], openfds := [], ctr := 0 }

structure GltexOracle where
  createOk : Bool
  queryOk : Bool
  fourcc : Int
  nplanes : Nat
  exportRes : Option (Int × Int)
deriving DecidableEq

/-- Invalidation prologue of `arcan_shmifext_gltex_handle` (lines 669-673):
a previously held image is destroyed and the recorded descriptor closed. -/
def gltex_invalidate (st : ExtGpu) : ExtGpu :=
  match st.image with
  | some h => { st with live := st.live.erase h,
                        openfds := st.openfds.erase st.dmabuf,
                        dmabuf := -1 }
  | none => st

/-- Embedding of the body of `arcan_shmifext_gltex_handle`: the
invalidation prologue runs first; then `create_image`,
`query_image_format`, the single-plane check and `export_dmabuf` each bail
out with `none` on failure; on export failure or negative stride the image
just created is destroyed again; on success the context records the new
descriptor and `(fd, stride, fourcc)` is handed to the caller. -/
def arcan_shmifext_gltex_handle (st : ExtGpu) (o : GltexOracle) :
    ExtGpu × Option (Int × Int × Int) :=
  let st1 := gltex_invalidate st
  if o.createOk then
    let h := st1.ctr
    let st2 := { st1 with image := some h, live := st1.live ++ [h],
                          ctr := st1.ctr + 1 }
    if o.queryOk then
      if o.nplanes = 1 then
        match o.exportRes with
        | some (fd, stride) =>
          if stride < 0 then
            ({ st2 with live := st2.live.erase h,
                        openfds := st2.openfds ++ [fd] }, none)
          else
            ({ st2 with dmabuf := fd, openfds := st2.openfds ++ [fd] },
              some (fd, stride, o.fourcc))
        | none => ({ st2 with live := st2.live.erase h }, none)
      else (st2, none)
    else (st2, none)
  else ({ st1 with image := none }, none)

/-- Well-behaved EGL driver: a successful `export_dmabuf` hands out a valid
(non-negative) descriptor and a non-negative stride. -/
def GltexOracleOk (o : GltexOracle) : Prop :=
  match o.exportRes with
  | some (fd, stride) => 0 ≤ fd ∧ 0 ≤ stride
  | none => True

instance (o : GltexOracle) : Decidable (GltexOracleOk o) := by
  unfold GltexOracleOk
  cases o.exportRes with
  | none => exact inferInstanceAs (Decidable True)
  | some p => exact inferInstanceAs (Decidable (_ ∧ _))

/-- In-flight invariant for the export state: at most one live image, which
is exactly the one the context references; a context without an image
reference holds descriptor -1; the open exported descriptors are exactly
the one recorded in `dmabuf` (none when `dmabuf` is -1). -/
def gltexInv (st : ExtGpu) : Prop :=
  (st.live = [] ∨ ∃ h, st.live = [h] ∧ st.image = some h) ∧
  (st.image = none → st.dmabuf = -1) ∧
  ((st.dmabuf = -1 ∧ st.openfds = []) ∨
    (0 ≤ st.dmabuf ∧ st.openfds = [st.dmabuf]))

theorem gltexInv_init : gltexInv extGpuInit := by
  refine ⟨Or.inl rfl, fun _ => rfl, Or.inl ⟨rfl, rfl⟩⟩

theorem gltex_invalidate_fields (st : ExtGpu) (hinv : gltexInv st) :
    gltex_invalidate st = ⟨st.image, -1, [], [], st.ctr⟩ := by
  obtain ⟨h1, h2, h3⟩ := hinv
  unfold gltex_invalidate
  cases himg : st.image with
  | none =>
    have hd := h2 himg
    have hfds : st.openfds = [] := by
      rcases h3 with ⟨_, hf⟩ | ⟨hge, _⟩
      · exact hf
      · rw [hd] at hge
        exact absurd hge (by decide)
    have hlv : st.live = [] := by
      rcases h1 with hl | ⟨h, _, hi⟩
      · exact hl
      · rw [himg] at hi
        cases hi
    rcases st with ⟨i, d, l, f, c⟩
    simp only at himg hd hfds hlv
    rw [himg, hd, hfds, hlv]
  | some h =>
    have hlv : st.live.erase h = [] := by
      rcases h1 with hl | ⟨h2x, hlx, hix⟩
      · rw [hl]
        rfl
      · rw [himg] at hix
        cases hix
        rw [hlx]
        simp
    have hfds : st.openfds.erase st.dmabuf = [] := by
      rcases h3 with ⟨_, hf⟩ | ⟨_, hf⟩
      · rw [hf]
        rfl
      · rw [hf]
        simp
    rcases st with ⟨i, d, l, f, c⟩
    simp only at himg hlv hfds
    subst himg
    dsimp only
    rw [hlv, hfds]

theorem gltexInv_step (st : ExtGpu) (o : GltexOracle)
    (hinv : gltexInv st) (hok : GltexOracleOk o) :
    gltexInv (arcan_shmifext_gltex_handle st o).1 := by
  unfold arcan_shmifext_gltex_handle gltexInv
  rw [gltex_invalidate_fields st hinv]
  by_cases hc : o.createOk
  · simp only [hc, if_true]
    by_cases hq : o.queryOk
    · simp only [hq, if_true]
      by_cases hn : o.nplanes = 1
      · simp only [hn, if_true]
        cases hexp : o.exportRes with
        | none => simp
        | some p =>
          obtain ⟨fd, stride⟩ := p
          have hfd : 0 ≤ fd ∧ 0 ≤ stride := by
            unfold GltexOracleOk at hok
            rw [hexp] at hok
            exact hok
          have hs : ¬ stride < 0 := by omega
          simp only [hs, if_false]
          refine ⟨Or.inr ⟨st.ctr, by simp, rfl⟩, ?_, Or.inr ⟨hfd.1, by simp⟩⟩
          intro hx
          simp at hx
      · simp only [hn, if_false]
        simp
    · simp only [hq, if_false]
      simp
  · simp only [hc, if_false]
    simp

theorem gltexInv_fold (os : List GltexOracle) (st : ExtGpu)
    (hinv : gltexInv st) (hok : ∀ o ∈ os, GltexOracleOk o) :
    gltexInv (os.foldl (fun s o => (arcan_shmifext_gltex_handle s o).1) st) := by
  induction os generalizing st with
  | nil => exact hinv
  | cons o os2 ih =>
    exact ih _ (gltexInv_step st o hinv (hok o (List.mem_cons_self o os2)))
      (fun x hx => hok x (List.mem_cons_of_mem o hx))

/-- Claim C7 — at most one exported GPU buffer handle per side is in flight:
after any sequence of `arcan_shmifext_gltex_handle` calls on a context
starting from the freshly initialised state (with a well-behaved EGL
driver), at most one EGL image is live and at most one exported dmabuf
descriptor is open, because every call that finds a previously exported,
unconsumed handle destroys the prior image and closes its descriptor before
exporting the new one. -/
theorem C7_one_handle_in_flight (os : List GltexOracle)
    (hok : ∀ o ∈ os, GltexOracleOk o) :
    (os.foldl (fun s o => (arcan_shmifext_gltex_handle s o).1)
      extGpuInit).live.length ≤ 1 ∧
    (os.foldl (fun s o => (arcan_shmifext_gltex_handle s o).1)
      extGpuInit).openfds.length ≤ 1 := by
  have hinv := gltexInv_fold os extGpuInit gltexInv_init hok
  obtain ⟨h1, _, h3⟩ := hinv
  constructor
  · rcases h1 with hl | ⟨h, hl, _⟩
    · rw [hl]
      simp
    · rw [hl]
      simp
  · rcases h3 with ⟨_, hf⟩ | ⟨_, hf⟩
    · rw [hf]
      simp
    · rw [hf]
      simp

/-- Witness for C7: two back-to-back successful exports (descriptors 10 then
11) leave exactly one live image and one open descriptor. -/
theorem C7_one_handle_in_flight_witness :
    ([⟨true, true, 5, 1, some (10, 256)⟩,
      ⟨true, true, 5, 1, some (11, 256)⟩].foldl
        (fun s o => (arcan_shmifext_gltex_handle s o).1)
        extGpuInit).live.length ≤ 1 ∧
    ([⟨true, true, 5, 1, some (10, 256)⟩,
      ⟨true, true, 5, 1, some (11, 256)⟩].foldl
        (fun s o => (arcan_shmifext_gltex_handle s o).1)
        extGpuInit).openfds.length ≤ 1 :=
  C7_one_handle_in_flight
    [⟨true, true, 5, 1, some (10, 256)⟩, ⟨true, true, 5, 1, some (11, 256)⟩]
    (by decide)

/-! ## Frame signalling with fallback (C6) — `arcan_shmifext_signal`

Embedding of the control flow of `arcan_shmifext_signal` (lines 701-813).
The context fields that steer it: `managed`, whether `rtgt_cur`/`rtgt_b`
are set, which buffer/rendertarget is current (flipped by the
double-buffering discipline), the `nopass` flag (set by
`arcan_shmifext_bufferfail` or by the no-descriptor-passing environment
configuration), and the export state from C7.  `hasExt` is the cached
result of `check_functions` (the `create_image` pointer being non-NULL);
`dpyValid` whether the effective `EGLDisplay` is non-NULL; `texBuiltin`
whether `tex_id == SHMIFEXT_BUILTIN`.  The pixel upload and the readback
itself are GPU calls outside the page model; the outcome records which
delivery path was taken. -/

structure SigCtx where
  managed : Bool
  rtgt : Bool
  rtgtB : Bool
  rtgtIsA : Bool
  bufIsA : Bool
  nopass : Bool
  gpu : ExtGpu
deriving DecidableEq

inductive SigOutcome where
  | err
  | handle (fd stride fmt : Int)
  | readback
deriving DecidableEq

/-- Tail of `arcan_shmifext_signal` from line 774 on: descriptor passing is
skipped (synchronous readback fallback) when `nopass` is set or the export
extension functions did not resolve; otherwise the handle export is
attempted and its failure also falls back to readback. -/
def signalCommon (ctx : SigCtx) (hasExt : Bool) (o : GltexOracle) :
    SigCtx × SigOutcome :=
  if ctx.nopass = true ∨ hasExt = false then (ctx, SigOutcome.readback)
  else
    match arcan_shmifext_gltex_handle ctx.gpu o with
    | (g, some (fd, stride, fmt)) =>
      ({ ctx with gpu := g }, SigOutcome.handle fd stride fmt)
    | (g, none) => ({ ctx with gpu := g }, SigOutcome.readback)

/-- Embedding of `arcan_shmifext_signal`: after the con/display validity
checks, the `SHMIFEXT_BUILTIN` branch requires a managed context (else -1);
without a rendertarget it jumps straight to the fallback when `nopass` is
already known, otherwise it streams the vidp and swaps the current
buffer/rendertarget slot; then the common passing-or-readback tail runs. -/
def arcan_shmifext_signal (ctx : SigCtx) (hasExt dpyValid texBuiltin : Bool)
    (o : GltexOracle) : SigCtx × SigOutcome :=
  if dpyValid = false then (ctx, SigOutcome.err)
  else if texBuiltin then
    if ctx.managed = false then (ctx, SigOutcome.err)
    else if ctx.rtgt = false ∧ ctx.nopass = true then (ctx, SigOutcome.readback)
    else
      let ctx1 :=
        if ctx.rtgt then
          { ctx with rtgtIsA := if ctx.rtgtB then !ctx.rtgtIsA else ctx.rtgtIsA }
        else { ctx with bufIsA := !ctx.bufIsA }
      signalCommon ctx1 hasExt o
  else signalCommon ctx hasExt o

/-- Claim C6 — for every frame signalled through `arcan_shmifext_signal` on
a valid display (and a managed context when the builtin texture is used),
the synchronous readback fallback is taken if and only if the no-pass flag
is set, the export extensions did not resolve, or the handle export fails;
the fallback is never silently skipped (the outcome is never the error
indicator in these configurations), and otherwise the frame is delivered by
passing the exported descriptor triple. -/
theorem C6_readback_fallback_iff (ctx : SigCtx)
    (hasExt texBuiltin : Bool) (o : GltexOracle)
    (hman : texBuiltin = true → ctx.managed = true) :
    ((arcan_shmifext_signal ctx hasExt true texBuiltin o).2 =
        SigOutcome.readback ↔
      (ctx.nopass = true ∨ hasExt = false ∨
        (arcan_shmifext_gltex_handle ctx.gpu o).2 = none)) ∧
    (arcan_shmifext_signal ctx hasExt true texBuiltin o).2 ≠
      SigOutcome.err ∧
    (∀ fd stride fmt,
      (arcan_shmifext_signal ctx hasExt true texBuiltin o).2 =
          SigOutcome.handle fd stride fmt ↔
        (ctx.nopass = false ∧ hasExt = true ∧
          (arcan_shmifext_gltex_handle ctx.gpu o).2 =
            some (fd, stride, fmt))) := by
  have hcommon : ∀ c : SigCtx, c.nopass = ctx.nopass → c.gpu = ctx.gpu →
      ((signalCommon c hasExt o).2 = SigOutcome.readback ↔
        (ctx.nopass = true ∨ hasExt = false ∨
          (arcan_shmifext_gltex_handle ctx.gpu o).2 = none)) ∧
      (signalCommon c hasExt o).2 ≠ SigOutcome.err ∧
      (∀ fd stride fmt,
        (signalCommon c hasExt o).2 = SigOutcome.handle fd stride fmt ↔
          (ctx.nopass = false ∧ hasExt = true ∧
            (arcan_shmifext_gltex_handle ctx.gpu o).2 =
              some (fd, stride, fmt))) := by
    intro c hnp hgpu
    unfold signalCommon
    rw [hnp, hgpu]
    by_cases h1 : ctx.nopass = true ∨ hasExt = false
    · rw [if_pos h1]
      rcases h1 with h | h
      · simp [h]
      · simp [h]
    · rw [if_neg h1]
      push_neg at h1
      obtain ⟨hnp2, hext⟩ := h1
      have hnp3 : ctx.nopass = false := by
        cases hcv : ctx.nopass
        · rfl
        · exact absurd hcv hnp2
      have hext2 : hasExt = true := by
        cases hcv : hasExt
        · exact absurd hcv hext
        · rfl
      cases hres : arcan_shmifext_gltex_handle ctx.gpu o with
      | mk g r =>
        cases r with
        | none => simp [hres, hnp3, hext2]
        | some t =>
          obtain ⟨fd0, stride0, fmt0⟩ := t
          simp [hres, hnp3, hext2]
  unfold arcan_shmifext_signal
  cases htb : texBuiltin with
  | false =>
    simp only [Bool.true_eq_false, if_false, Bool.false_eq_true]
    exact hcommon ctx rfl rfl
  | true =>
    have hm := hman htb
    simp only [hm, Bool.true_eq_false, if_false, if_true]
    by_cases hearly : ctx.rtgt = false ∧ ctx.nopass = true
    · rw [if_pos hearly]
      simp [hearly.2]
    · rw [if_neg hearly]
      by_cases hrt : ctx.rtgt
      · simp only [hrt, if_true]
        exact hcommon _ rfl rfl
      · simp only [hrt, if_false]
        exact hcommon _ rfl rfl

/-- Witness for C6: managed context with `nopass` set and the builtin
texture — the frame is delivered via readback. -/
theorem C6_readback_fallback_iff_witness :
    ((arcan_shmifext_signal
        ⟨true, false, false, true, true, true, extGpuInit⟩ true true true
        ⟨true, true, 5, 1, some (10, 256)⟩).2 = SigOutcome.readback ↔
      ((⟨true, false, false, true, true, true, extGpuInit⟩ : SigCtx).nopass =
          true ∨ (true : Bool) = false ∨
        (arcan_shmifext_gltex_handle
          (⟨true, false, false, true, true, true, extGpuInit⟩ : SigCtx).gpu
          ⟨true, true, 5, 1, some (10, 256)⟩).2 = none)) ∧
    (arcan_shmifext_signal
        ⟨true, false, false, true, true, true, extGpuInit⟩ true true true
        ⟨true, true, 5, 1, some (10, 256)⟩).2 ≠ SigOutcome.err ∧
    (∀ fd stride fmt,
      (arcan_shmifext_signal
          ⟨true, false, false, true, true, true, extGpuInit⟩ true true true
          ⟨true, true, 5, 1, some (10, 256)⟩).2 =
          SigOutcome.handle fd stride fmt ↔
        ((⟨true, false, false, true, true, true, extGpuInit⟩ : SigCtx).nopass =
            false ∧ (true : Bool) = true ∧
          (arcan_shmifext_gltex_handle
            (⟨true, false, false, true, true, true, extGpuInit⟩ : SigCtx).gpu
            ⟨true, true, 5, 1, some (10, 256)⟩).2 =
              some (fd, stride, fmt))) :=
  C6_readback_fallback_iff ⟨true, false, false, true, true, true, extGpuInit⟩
    true true ⟨true, true, 5, 1, some (10, 256)⟩ (fun _ => rfl)

/-! ## Context slots (C10) — `add_context` / `get_egl_context` /
`arcan_shmifext_swap_context`

Embedding of the context-slot management (lines 178-314).
`alt_contexts` is the 64-entry `EGLContext` array, zero-initialised by the
`memset` in `arcan_shmifext_egl`; it is modelled as a total function so
that the out-of-range slot indices the C code computes stay expressible.
`ctx_alloc` is the `uint64_t` allocation bitmask; the C `1 << i` tests and
sets are modelled as `2 ^ i` / `testBit` (the idealised intent — for the
indices reached in the theorems below, `i ≤ 1`, the two agree).  EGL calls
(`eglGetConfigs`, `eglChooseConfig`, `eglCreateContext`) are abstracted by
a per-call oracle; contexts are abstract names. -/

structure ExtCtx where
  ctx_alloc : Nat
  alt_contexts : Nat → Option Nat
  managed : Bool
  displayValid : Bool
  context : Option Nat
  context_ind : Nat

inductive SetupStatus where
  | ok
  | noApi
  | noConfig
  | noContext
  | oom
deriving DecidableEq

structure AddCtxOracle where
  getConfigsOk : Bool
  nconfigs : Int
  chooseOk : Bool
  nchosen : Int
  created : Option Nat
deriving DecidableEq

/-- First free allocation bit, the loop at lines 218-224. -/
def firstFree (alloc : Nat) : Option Nat :=
  (List.range 64).find? (fun i => ! alloc.testBit i)

/-- Embedding of `get_egl_context` (lines 178-189): fails on an index ≥ 64,
an unmanaged context or an unallocated bit, otherwise reads the slot
`(1 << ind) - 1`. -/
def get_egl_context (st : ExtCtx) (ind : Nat) : Option Nat :=
  if 64 ≤ ind then none
  else if st.managed = false ∨ st.ctx_alloc.testBit ind = false then none
  else st.alt_contexts (2 ^ ind - 1)

/-- Embedding of `add_context` (lines 191-277), `api` 0 = `API_OPENGL`, 1 =
`API_GLES` (the attribute construction and the `shared_context` lookup only
feed the `eglCreateContext` call, which the oracle abstracts).  The created
context is stored into slot `(1 << i) - 1`, but the NULL test that guards
allocation reads slot `i << i` — exactly as the C does. -/
def add_context (st : ExtCtx) (api : Nat) (o : AddCtxOracle) :
    SetupStatus × Option Nat × ExtCtx :=
  if api ≠ 0 ∧ api ≠ 1 then (SetupStatus.noApi, none, st)
  else
    match firstFree st.ctx_alloc with
    | none => (SetupStatus.oom, none, st)
    | some i =>
      if o.getConfigsOk = false then (SetupStatus.noConfig, none, st)
      else if o.nconfigs = 0 then (SetupStatus.noConfig, none, st)
      else if o.chooseOk = false ∨ o.nchosen < 1 then
        (SetupStatus.noConfig, none, st)
      else
        let arr := fun j => if j = 2 ^ i - 1 then o.created
          else st.alt_contexts j
        if (arr (i <<< i)).isNone then
          (SetupStatus.noContext, none, { st with alt_contexts := arr })
        else
          (SetupStatus.ok, some (i + 1),
            { st with alt_contexts := arr,
                      ctx_alloc := st.ctx_alloc ||| 2 ^ i })

/-- Embedding of `arcan_shmifext_add_context` (lines 279-294): 0 on guard
or `add_context` failure, the returned index otherwise. -/
def arcan_shmifext_add_context (st : ExtCtx) (api : Nat) (o : AddCtxOracle) :
    Nat × ExtCtx :=
  if st.displayValid = false then (0, st)
  else
    match add_context st api o with
    | (SetupStatus.ok, some res, st2) => (res, st2)
    | (_, _, st2) => (0, st2)

/-- Embedding of `arcan_shmifext_swap_context` (lines 296-314): guards on a
valid display and `0 < context ≤ 64`, then makes the looked-up context
current; on any failure the current context is unchanged. -/
def arcan_shmifext_swap_context (st : ExtCtx) (context : Nat) : ExtCtx :=
  if st.displayValid = false ∨ 64 < context ∨ context = 0 then st
  else
    match get_egl_context st (context - 1) with
    | none => st
    | some egl_ctx =>
      { st with context_ind := context - 1, context := some egl_ctx }

/-- State after a successful `arcan_shmifext_setup`: the setup path ran
`add_context` on the zeroed mask (allocating bit 0, storing the context in
slot 0) and swapped it in. -/
def c10_st0 : ExtCtx :=
  { ctx_alloc := 1,
    alt_contexts := fun j => if j = 0 then some 100 else none,
    managed := true, displayValid := true,
    context := some 100, context_ind := 0 }

/-- Oracle in which every EGL call of a second `add_context` succeeds,
`eglCreateContext` returning the fresh context 101. -/
def c10_oracle : AddCtxOracle :=
  { getConfigsOk := true, nconfigs := 4, chooseOk := true, nchosen := 1,
    created := some 101 }

/-- Claim C10 — the claim matches the documented contract (`_setup creates
one context, and this function can be added to create additional ones`, a
nonzero reference usable with `swap_context`), but the code is wrong: the
NULL check after `eglCreateContext` reads `alt_contexts[i << i]` instead of
the slot `(1 << i) - 1` just written, so on a context with bit 0 allocated
the second `add_context` finds `i = 1`, stores the successfully created
context in slot 1, tests the never-written slot `1 << 1 = 2`, and fails
with `SHMIFEXT_NO_CONTEXT` (the wrapper returns 0), leaking the created
context and leaving `ctx_alloc` unchanged — a second successful
`add_context` is impossible.  The first context meanwhile round-trips:
`swap_context` with index 1 makes it current, and index 0 or an unallocated
index leaves the current context unchanged. -/
theorem C10_second_add_context_code_bug :
    c10_oracle.created = some 101 ∧
    (add_context c10_st0 0 c10_oracle).1 = SetupStatus.noContext ∧
    (arcan_shmifext_add_context c10_st0 0 c10_oracle).1 = 0 ∧
    ((add_context c10_st0 0 c10_oracle).2.2).alt_contexts 1 = some 101 ∧
    ((add_context c10_st0 0 c10_oracle).2.2).ctx_alloc = 1 ∧
    (arcan_shmifext_swap_context c10_st0 1).context = some 100 ∧
    (arcan_shmifext_swap_context c10_st0 0).context = c10_st0.context ∧
    (arcan_shmifext_swap_context c10_st0 5).context = c10_st0.context := by
  decide

end Arcan
